import Mathlib

/-!
Shallow embedding of the event-driven workflow orchestration subsystem of
the okta-sso-hub repository (src/integrations: okta_workflows_connector.py,
flow_executor.py, event_trigger.py).  The Python sources of the three modules
are not shipped in this snapshot; only their declarations and documentation
(QUICK_REFERENCE.md, the module README) are.  Definitions below are therefore
modelled from the specification and from the declared signatures, as indicated
in each doc comment.
-/

namespace OktaWorkflows

/-- Declared workflow status enumeration of the connector, taken verbatim from
the repository documentation (QUICK_REFERENCE.md, section Workflow Status
Values): PENDING, RUNNING, SUCCESS, FAILED, CANCELLED. -/
inductive WorkflowStatus where
  | pending
  | running
  | success
  | failed
  | cancelled
deriving DecidableEq

/-- String value of each declared WorkflowStatus member, as documented in
QUICK_REFERENCE.md ("pending", "running", "success", "failed", "cancelled"). -/
def WorkflowStatus.value : WorkflowStatus → String
  | .pending => "pending"
  | .running => "running"
  | .success => "success"
  | .failed => "failed"
  | .cancelled => "cancelled"

/-- Exhaustive list of the declared WorkflowStatus members. -/
def WorkflowStatus.all : List WorkflowStatus :=
  [.pending, .running, .success, .failed, .cancelled]

/-- Modelled from the spec: executor-level execution status.  The spec data
model (section 3) gives statuses Pending, Running, Success, Failed, Cancelled,
TimedOut for an ExecutionResult; the sixth, timed_out, is produced locally by
the executor when a wait runs out of time and does not occur in the declared
connector enumeration WorkflowStatus. -/
inductive ExecStatus where
  | pending
  | running
  | success
  | failed
  | cancelled
  | timed_out
deriving DecidableEq

/-- Exhaustive list of the executor-level statuses. -/
def ExecStatus.all : List ExecStatus :=
  [.pending, .running, .success, .failed, .cancelled, .timed_out]

/-- Terminal statuses per the spec glossary: Success, Failed, Cancelled,
TimedOut; no further transitions follow. -/
def ExecStatus.isTerminal : ExecStatus → Bool
  | .success => true
  | .failed => true
  | .cancelled => true
  | .timed_out => true
  | _ => false

/-- Embedding of each declared backend status into the executor-level status. -/
def WorkflowStatus.toExecStatus : WorkflowStatus → ExecStatus
  | .pending => ExecStatus.pending
  | .running => ExecStatus.running
  | .success => ExecStatus.success
  | .failed => ExecStatus.failed
  | .cancelled => ExecStatus.cancelled

/-- Modelled from the spec (section 3) and the declared ExecutionResult
properties in QUICK_REFERENCE.md: execution_id (unique), flow_id, status,
started_at, completed_at (nullable), input_data, output_data (set only on
Success), error (set on Failed/TimedOut).  Timestamps are clock ticks;
opaque maps are association lists; the unique string execution ids of the
missing Python sources are modelled as naturals issued by a counter;
duration is derived from the two timestamps, never stored. -/
structure ExecutionResult where
  execution_id : Nat
  flow_id : String
  status : ExecStatus
  started_at : Nat
  completed_at : Option Nat
  input_data : List (String × String)
  output_data : List (String × String)
  error : Option String
deriving DecidableEq

instance : Inhabited ExecutionResult :=
  ⟨⟨0, "", ExecStatus.pending, 0, none, [], [], none⟩⟩

/-- Derived duration of an execution, defined from the two timestamps only
(spec section 3: duration is derived, never stored independently). -/
def ExecutionResult.duration (r : ExecutionResult) : Option Nat :=
  r.completed_at.map (fun t => t - r.started_at)

/-- Reply of the connector status poll: backend status, output data and
error message, per the declared get_flow_status contract. -/
structure PollReply where
  status : WorkflowStatus
  output_data : List (String × String)
  error : Option String
deriving DecidableEq

/-- Modelled from the spec (section 4.1): the stateless FlowConnector.
invoke_flow either fails (ConnectionError or InvalidFlowError, collapsed
into an error message) or accepts the invocation and reports an initial
backend status; get_flow_status reports the backend status of an execution
id at a given elapsed time, letting a connector model a backend whose
status evolves while the executor polls. -/
structure Connector where
  invoke_flow : String → List (String × String) → Except String WorkflowStatus
  get_flow_status : Nat → Nat → PollReply

/-- Modelled from the spec: executor-owned orchestration state — the id
counter for fresh execution ids, a clock in ticks, and the append-or-update
execution history (section 3, ExecutionHistory). -/
structure ExecState where
  next_id : Nat
  clock : Nat
  history : List ExecutionResult
deriving DecidableEq

/-- Initial executor state. -/
def initState : ExecState :=
  { next_id := 0, clock := 0, history := [] }

/-- Update the history entry with the given execution id in place (spec
section 4.2: every execution is appended on creation and updated in place by
executionId as status changes, never duplicated). -/
def update_by_id (hist : List ExecutionResult) (eid : Nat) (r : ExecutionResult) :
    List ExecutionResult :=
  hist.map (fun x => if x.execution_id = eid then r else x)

/-- Outcome of the executor's poll loop: final status, output, error, the
elapsed time at which the loop stopped, and how many get_flow_status calls
were made. -/
structure PollOutcome where
  status : ExecStatus
  output_data : List (String × String)
  error : Option String
  elapsed : Nat
  polls : Nat
deriving DecidableEq

/-- Modelled from the spec (section 4.2): once the elapsed time reaches the
timeout the executor makes one best-effort final status read; if even that
read is not terminal the execution is judged TimedOut locally. -/
def timeout_outcome (conn : Connector) (eid : Nat) (elapsed polls : Nat) : PollOutcome :=
  if (conn.get_flow_status eid elapsed).status.toExecStatus.isTerminal then
    { status := (conn.get_flow_status eid elapsed).status.toExecStatus,
      output_data := (conn.get_flow_status eid elapsed).output_data,
      error := (conn.get_flow_status eid elapsed).error, elapsed := elapsed, polls := polls + 1 }
  else
    { status := ExecStatus.timed_out, output_data := [],
      error := some "Execution timed out", elapsed := elapsed, polls := polls + 1 }

/-- Modelled from the spec (section 4.2): suspend-poll at poll_interval until
a terminal status is returned or timeout elapses.  Recursion is on explicit
fuel; with fuel at least timeout / poll_interval + 2 and a positive interval
the fuel never runs out before the timeout branch fires. -/
def poll_loop (conn : Connector) (eid poll_interval timeout : Nat) :
    Nat → Nat → Nat → PollOutcome
  | elapsed, polls, 0 => timeout_outcome conn eid elapsed polls
  | elapsed, polls, fuel + 1 =>
    if timeout ≤ elapsed then
      timeout_outcome conn eid elapsed polls
    else
      if (conn.get_flow_status eid elapsed).status.toExecStatus.isTerminal then
        { status := (conn.get_flow_status eid elapsed).status.toExecStatus,
          output_data := (conn.get_flow_status eid elapsed).output_data,
          error := (conn.get_flow_status eid elapsed).error, elapsed := elapsed, polls := polls + 1 }
      else
        poll_loop conn eid poll_interval timeout (elapsed + poll_interval) (polls + 1) fuel

/-- Fuel bound for the poll loop. -/
def exec_fuel (timeout poll_interval : Nat) : Nat :=
  timeout / poll_interval + 2

/-- Outcome of one execute_flow call: the returned ExecutionResult, the new
executor state, and the post-invocation running snapshot (absent when the
invocation itself failed), on which the on_start callbacks fire. -/
structure ExecOutcome where
  result : ExecutionResult
  state : ExecState
  started : Option ExecutionResult
deriving DecidableEq

/-- Modelled from the spec (section 4.2) and the declared signature of
FlowExecutor.execute_flow: invoke the flow through the connector; on
connection failure mark the execution Failed (section 7); otherwise record
the invocation, and when wait_for_completion is set suspend-poll until a
terminal status or timeout, updating the history entry in place.  The
error field is kept only on Failed/TimedOut and output_data only on
Success (section 3). -/
def execute_flow_core (conn : Connector) (st : ExecState) (flow_id : String)
    (input_data : List (String × String)) (timeout poll_interval : Nat)
    (wait_for_completion : Bool) : ExecOutcome :=
  match conn.invoke_flow flow_id input_data with
  | Except.error msg =>
      let r : ExecutionResult :=
        { execution_id := st.next_id, flow_id := flow_id,
          status := ExecStatus.failed, started_at := st.clock,
          completed_at := some st.clock, input_data := input_data,
          output_data := [], error := some msg }
      { result := r,
        state := { next_id := st.next_id + 1, clock := st.clock,
                   history := st.history ++ [r] },
        started := none }
  | Except.ok s0 =>
      let eid := st.next_id
      let st0 := s0.toExecStatus
      let r0 : ExecutionResult :=
        { execution_id := eid, flow_id := flow_id, status := st0,
          started_at := st.clock,
          completed_at := if st0.isTerminal then some st.clock else none,
          input_data := input_data, output_data := [], error := none }
      if wait_for_completion && !st0.isTerminal then
        let oc := poll_loop conn eid poll_interval timeout 0 0 (exec_fuel timeout poll_interval)
        let r1 : ExecutionResult :=
          { execution_id := eid, flow_id := flow_id, status := oc.status,
            started_at := st.clock, completed_at := some (st.clock + oc.elapsed),
            input_data := input_data,
            output_data := if oc.status = ExecStatus.success then oc.output_data else [],
            error := if oc.status = ExecStatus.failed ∨ oc.status = ExecStatus.timed_out then
                       oc.error
                     else none }
        { result := r1,
          state := { next_id := st.next_id + 1, clock := st.clock + oc.elapsed,
                     history := update_by_id (st.history ++ [r0]) eid r1 },
          started := some r0 }
      else
        { result := r0,
          state := { next_id := st.next_id + 1, clock := st.clock,
                     history := st.history ++ [r0] },
          started := some r0 }

/-- Refresh one non-terminal history entry from the current backend status,
keeping the spec section 3 field discipline: completed_at set exactly when
terminal, output_data only on Success, error only on Failed/TimedOut. -/
def refresh_entry (conn : Connector) (clock eid : Nat) (r : ExecutionResult) :
    ExecutionResult :=
  { r with
    status := (conn.get_flow_status eid clock).status.toExecStatus,
    completed_at :=
      if ((conn.get_flow_status eid clock).status.toExecStatus).isTerminal then
        some clock
      else none,
    output_data :=
      if (conn.get_flow_status eid clock).status.toExecStatus = ExecStatus.success then
        (conn.get_flow_status eid clock).output_data
      else [],
    error :=
      if (conn.get_flow_status eid clock).status.toExecStatus = ExecStatus.failed ∨
          (conn.get_flow_status eid clock).status.toExecStatus = ExecStatus.timed_out then
        (conn.get_flow_status eid clock).error
      else none }

/-- Modelled from the spec (section 4.2) and the declared signature
get_execution_status(execution_id): look up the local history entry; a
terminal entry is returned as stored (idempotent), a non-terminal entry is
refreshed from the backend and the refreshed entry replaces it in place. -/
def get_execution_status (conn : Connector) (st : ExecState) (eid : Nat) :
    Option ExecutionResult × ExecState :=
  match st.history.find? (fun r => r.execution_id == eid) with
  | none => (none, st)
  | some r =>
      if r.status.isTerminal then
        (some r, st)
      else
        (some (refresh_entry conn st.clock eid r),
         { st with history := update_by_id st.history eid (refresh_entry conn st.clock eid r) })

/-- Whether a history entry passes the optional flow-id filter of the
declared get_execution_history / get_success_rate signatures. -/
def matches_flow (flowFilter : Option String) (r : ExecutionResult) : Bool :=
  match flowFilter with
  | none => true
  | some f => r.flow_id == f

/-- Modelled from the declared signature get_execution_history(flow_id,
status_filter): the history entries passing both optional filters, in
stored order. -/
def get_execution_history (st : ExecState) (flowFilter : Option String)
    (statusFilter : Option ExecStatus) : List ExecutionResult :=
  (st.history.filter (matches_flow flowFilter)).filter
    (fun r =>
      match statusFilter with
      | none => true
      | some s => r.status == s)

/-- Number of terminal executions among the history entries matching the
optional flow filter. -/
def terminal_count (st : ExecState) (flowFilter : Option String) : Nat :=
  ((st.history.filter (matches_flow flowFilter)).filter
    (fun r => r.status.isTerminal)).length

/-- Number of Success executions among the history entries matching the
optional flow filter. -/
def success_count (st : ExecState) (flowFilter : Option String) : Nat :=
  ((st.history.filter (matches_flow flowFilter)).filter
    (fun r => r.status == ExecStatus.success)).length

/-- Modelled from the spec (section 4.2): get_success_rate(flow_id) is
successes / terminal-count among matching entries, and exactly 0 when no
matching terminal execution exists; the value is an exact rational, so the
division is total and never produces NaN or an error. -/
def get_success_rate (st : ExecState) (flowFilter : Option String) : ℚ :=
  let t := terminal_count st flowFilter
  if t = 0 then 0 else (success_count st flowFilter : ℚ) / (t : ℚ)

/-- Request record of execute_multiple_flows, per the documented shape
of flow_executions entries: a flow id and its input data. -/
structure FlowRequest where
  flow_id : String
  input_data : List (String × String)
deriving DecidableEq

instance : Inhabited FlowRequest :=
  ⟨{ flow_id := "", input_data := [] }⟩

/-- Modelled from the spec (section 4.2): run the requests strictly in input
order, each awaited to a terminal state before the next is dispatched,
threading the executor state. -/
def run_requests (conn : Connector) (timeout poll_interval : Nat) :
    List FlowRequest → ExecState → List ExecutionResult × ExecState
  | [], st => ([], st)
  | q :: qs, st =>
      let o := execute_flow_core conn st q.flow_id q.input_data timeout poll_interval true
      let rest := run_requests conn timeout poll_interval qs o.state
      (o.result :: rest.1, rest.2)

/-- Modelled from the spec (section 4.2, parallel mode): completions arrive
in an arbitrary order, given here as the list of request indices in
completion order; each completion is written into the slot of its request
index, so the assembled list is index-aligned with the input. -/
def join_by_index (n : Nat) (rs : List ExecutionResult) (order : List Nat) :
    List ExecutionResult :=
  (((order.map (fun i => (i, rs.getD i default))).foldl
      (fun acc pr => acc.set pr.1 (some pr.2))
      (List.replicate n (none : Option ExecutionResult))).map
    (fun o => o.getD default))

/-- Modelled from the spec (section 4.2) and the declared signature
execute_multiple_flows(flow_executions, parallel): in parallel mode all
requests are dispatched in input order before any is awaited and the joint
await delivers completions in an arbitrary order, modelled by the explicit
order parameter; in sequential mode requests run strictly in input order.
Either way the returned list is assembled by request index. -/
def execute_multiple_flows (conn : Connector) (st : ExecState)
    (reqs : List FlowRequest) (timeout poll_interval : Nat) (parallel : Bool)
    (order : List Nat) : List ExecutionResult × ExecState :=
  let runs := run_requests conn timeout poll_interval reqs st
  if parallel then
    (join_by_index reqs.length runs.1 order, runs.2)
  else
    runs

/-- Registered observer callbacks of the executor (on_start, on_complete,
on_error).  A callback may throw, modelled by the Except error channel. -/
structure Callbacks where
  on_start : List (ExecutionResult → Except String Unit)
  on_complete : List (ExecutionResult → Except String Unit)
  on_error : List (ExecutionResult → Except String Unit)

/-- Run one callback, catching anything it throws; the caught message is
returned as the log entry (spec section 4.2: callback exceptions are caught
and logged, never propagated). -/
def run_callback (f : ExecutionResult → Except String Unit) (r : ExecutionResult) :
    Option String :=
  match f r with
  | Except.ok _ => none
  | Except.error msg => some msg

/-- Fire every callback of a registry entry on a result, collecting the
caught exceptions as the log; a throwing callback never prevents the
remaining callbacks from firing. -/
def fire_all (cbs : List (ExecutionResult → Except String Unit))
    (r : ExecutionResult) : List (Option String) :=
  cbs.map (fun f => run_callback f r)

/-- Log of caught callback exceptions of one execute_flow call, one entry
per fired callback, in registration order. -/
structure CallbackLog where
  start_log : List (Option String)
  complete_log : List (Option String)
  error_log : List (Option String)
deriving DecidableEq

/-- Outcome of execute_flow with callbacks: result, state and the log of
caught callback exceptions. -/
structure ExecCbOutcome where
  result : ExecutionResult
  state : ExecState
  log : CallbackLog

/-- Modelled from the spec (section 4.2): execute_flow fires on_start
immediately after the invocation is accepted, on_complete on any terminal
result, and on_error additionally on Failed/TimedOut; every callback runs
inside a catch, so a throwing callback is logged and cannot change the
result, the history, or the firing of the remaining callbacks. -/
def execute_flow_with_callbacks (conn : Connector) (cbs : Callbacks)
    (st : ExecState) (flow_id : String) (input_data : List (String × String))
    (timeout poll_interval : Nat) (wait_for_completion : Bool) : ExecCbOutcome :=
  let o := execute_flow_core conn st flow_id input_data timeout poll_interval
    wait_for_completion
  { result := o.result,
    state := o.state,
    log :=
      { start_log :=
          match o.started with
          | none => []
          | some r0 => fire_all cbs.on_start r0,
        complete_log :=
          if o.result.status.isTerminal then fire_all cbs.on_complete o.result else [],
        error_log :=
          if o.result.status = ExecStatus.failed ∨ o.result.status = ExecStatus.timed_out then
            fire_all cbs.on_error o.result
          else [] } }

/-- Modelled from the declared signature of execute_flow in
QUICK_REFERENCE.md (wait_for_completion: bool = True): a call that does not
specify wait_for_completion uses the declared default, true. -/
def execute_flow_default (conn : Connector) (st : ExecState) (flow_id : String)
    (input_data : List (String × String)) (timeout poll_interval : Nat) : ExecOutcome :=
  execute_flow_core conn st flow_id input_data timeout poll_interval true

/-- Lifecycle event consumed by the trigger, per the declared SSOEvent
constructor in QUICK_REFERENCE.md: event_id, event_type, timestamp,
user_id, user_email, metadata.  Immutable once constructed. -/
structure SSOEvent where
  event_id : String
  event_type : String
  timestamp : String
  user_id : String
  user_email : String
  metadata : List (String × String)
deriving DecidableEq

/-- Trigger rule per the declared TriggerRule constructor and the spec data
model (section 3): rule id, the event types it listens for, target flow id,
optional condition predicate, input transformer (which may throw, modelled
by the Except error channel), and the enabled flag. -/
structure TriggerRule where
  rule_id : String
  event_types : List String
  flow_id : String
  condition : Option (SSOEvent → Bool)
  input_transformer : SSOEvent → Except String (List (String × String))
  enabled : Bool

/-- Modelled from the spec (section 4.3, steps 1 and 2): a rule matches an
event when it is enabled, its event-type set contains the event type, and
its condition evaluates to true on the event, an absent condition counting
as true. -/
def rule_matches (r : TriggerRule) (e : SSOEvent) : Bool :=
  r.enabled && r.event_types.contains e.event_type &&
    (match r.condition with
     | none => true
     | some c => c e)

/-- Enabled rules matching the event, in registry order. -/
def matching_rules (rules : List TriggerRule) (e : SSOEvent) : List TriggerRule :=
  rules.filter (fun r => rule_matches r e)

/-- Modelled from the spec (section 4.3, step 3, and section 7,
TransformError): dispatch one matching rule.  A transformer failure yields a
Failed-shaped ExecutionResult for that rule only, which is not dispatched to
the executor and enters no history; a successful transform dispatches the
rule's flow through FlowExecutor.execute.  The second component of the
returned triple lists the execution ids actually issued (empty on a
transform failure). -/
def dispatch_rule (conn : Connector) (st : ExecState) (e : SSOEvent)
    (r : TriggerRule) (timeout poll_interval : Nat) (wait : Bool) :
    ExecutionResult × List Nat × ExecState :=
  match r.input_transformer e with
  | Except.error msg =>
      let res : ExecutionResult :=
        { execution_id := st.next_id, flow_id := r.flow_id,
          status := ExecStatus.failed, started_at := st.clock,
          completed_at := some st.clock, input_data := [], output_data := [],
          error := some ("Input transformation failed: " ++ msg) }
      (res, [], { st with next_id := st.next_id + 1 })
  | Except.ok input =>
      let o := execute_flow_core conn st r.flow_id input timeout poll_interval wait
      (o.result, [o.result.execution_id], o.state)

/-- Modelled from the spec (section 4.3, steps 3 to 5): process the matching
rules in registry order, threading the executor state; returns one
ExecutionResult per rule together with the issued execution ids in dispatch
order. -/
def process_rules (conn : Connector) (e : SSOEvent) (timeout poll_interval : Nat)
    (wait : Bool) : List TriggerRule → ExecState →
    List ExecutionResult × List Nat × ExecState
  | [], st => ([], [], st)
  | r :: rs, st =>
      let d := dispatch_rule conn st e r timeout poll_interval wait
      let rest := process_rules conn e timeout poll_interval wait rs d.2.2
      (d.1 :: rest.1, d.2.1 ++ rest.2.1, rest.2.2)

/-- Modelled from the spec (section 3): trigger-owned state — the rule
registry, the executor state of the FlowExecutor it dispatches to, the
correlation map from event id to the ordered execution ids it triggered,
and the event-history buffer. -/
structure TriggerState where
  rules : List TriggerRule
  exec : ExecState
  correlations : List (String × List Nat)
  event_history : List SSOEvent

/-- Execution ids recorded in the correlation map for an event id; an
unknown event id has triggered nothing. -/
def corr_get (cs : List (String × List Nat)) (k : String) : List Nat :=
  ((cs.find? (fun p => p.1 == k)).map Prod.snd).getD []

/-- Append execution ids to the correlation record of an event id, creating
the record at first dispatch (spec section 3: created at dispatch time,
appended to as each matching rule's execution is issued, never otherwise
mutated). -/
def corr_add (cs : List (String × List Nat)) (k : String) (ids : List Nat) :
    List (String × List Nat) :=
  if (cs.find? (fun p => p.1 == k)).isSome then
    cs.map (fun p => if p.1 == k then (p.1, p.2 ++ ids) else p)
  else
    cs ++ [(k, ids)]

/-- Modelled from the spec (section 4.3): process_event selects the enabled
matching rules, dispatches each through the executor (a transform failure
yielding that rule's Failed-shaped entry only), appends the issued execution
ids to the correlation record of the event id, appends the event itself to
the event history, and returns the per-rule results — the empty list, not
an error, when no rule matches. -/
def process_event (conn : Connector) (ts : TriggerState) (e : SSOEvent)
    (timeout poll_interval : Nat) (wait : Bool) :
    List ExecutionResult × TriggerState :=
  let ms := matching_rules ts.rules e
  let p := process_rules conn e timeout poll_interval wait ms ts.exec
  (p.1,
    { rules := ts.rules,
      exec := p.2.2,
      correlations := corr_add ts.correlations e.event_id p.2.1,
      event_history := ts.event_history ++ [e] })

/-- Modelled from the declared signature get_workflows_for_event(event_id):
the execution ids the event triggered, in dispatch order. -/
def get_workflows_for_event (ts : TriggerState) (eid : String) : List Nat :=
  corr_get ts.correlations eid

/-- One orchestration step on the executor state: an execute_flow call, a
get_execution_status refresh, an execute_multiple_flows batch, or an event
processed by the trigger (whose dispatches go through the executor). -/
inductive Step : ExecState → ExecState → Prop where
  | exec (conn : Connector) (st : ExecState) (flow_id : String)
      (input_data : List (String × String)) (timeout poll_interval : Nat)
      (wait : Bool) :
      Step st (execute_flow_core conn st flow_id input_data timeout poll_interval wait).state
  | query (conn : Connector) (st : ExecState) (eid : Nat) :
      Step st (get_execution_status conn st eid).2
  | multi (conn : Connector) (st : ExecState) (reqs : List FlowRequest)
      (timeout poll_interval : Nat) (parallel : Bool) (order : List Nat) :
      Step st (execute_multiple_flows conn st reqs timeout poll_interval parallel order).2
  | event (conn : Connector) (rules : List TriggerRule) (st : ExecState)
      (corr : List (String × List Nat)) (ehist : List SSOEvent) (e : SSOEvent)
      (timeout poll_interval : Nat) (wait : Bool) :
      Step st (process_event conn ⟨rules, st, corr, ehist⟩ e timeout poll_interval wait).2.exec

/-- Executor states reachable from the initial state by orchestration
steps. -/
inductive Reached : ExecState → Prop where
  | init : Reached initState
  | step (st st2 : ExecState) : Reached st → Step st st2 → Reached st2

/-- Zero or more orchestration steps. -/
def Steps : ExecState → ExecState → Prop :=
  Relation.ReflTransGen Step

/-- Well-formedness of the executor history: completed_at is set exactly on
terminal entries, every recorded execution id is below the id counter, and
no id is recorded twice (spec section 3: executionId unique, completedAt set
iff status is terminal). -/
def HistoryWF (st : ExecState) : Prop :=
  (∀ r ∈ st.history, r.completed_at.isSome = r.status.isTerminal) ∧
  (∀ r ∈ st.history, r.execution_id < st.next_id) ∧
  (st.history.map ExecutionResult.execution_id).Nodup

instance : Inhabited TriggerRule :=
  ⟨{ rule_id := "", event_types := [], flow_id := "", condition := none,
     input_transformer := fun _ => Except.ok [], enabled := false }⟩

/-- Connector stub whose backend never reports a terminal status (the
timeout scenario of spec section 8, Scenario C). -/
def stubNever : Connector :=
  { invoke_flow := fun _ _ => Except.ok WorkflowStatus.running,
    get_flow_status := fun _ _ =>
      { status := WorkflowStatus.running, output_data := [], error := none } }

/-- Connector stub whose backend reports success once two ticks have
elapsed, mirroring the simulation connector used for demonstrations. -/
def mockConn : Connector :=
  { invoke_flow := fun _ _ => Except.ok WorkflowStatus.running,
    get_flow_status := fun _ t =>
      if 2 ≤ t then
        { status := WorkflowStatus.success, output_data := [("done", "true")], error := none }
      else
        { status := WorkflowStatus.running, output_data := [], error := none } }

/-- Default onboarding rule of the pre-configured rule set (module README:
events user.lifecycle.create / user.lifecycle.activate, flow
flow_new_hire_onboarding). -/
def rule_onboarding : TriggerRule :=
  { rule_id := "rule_onboarding",
    event_types := ["user.lifecycle.create", "user.lifecycle.activate"],
    flow_id := "flow_new_hire_onboarding",
    condition := none,
    input_transformer := fun e => Except.ok [("user_id", e.user_id), ("email", e.user_email)],
    enabled := true }

/-- Second rule listening on user.lifecycle.create, used for the shared
event scenario (spec section 8, Scenario B). -/
def rule_audit : TriggerRule :=
  { rule_id := "rule_audit",
    event_types := ["user.lifecycle.create"],
    flow_id := "flow_access_audit",
    condition := none,
    input_transformer := fun e => Except.ok [("user_id", e.user_id)],
    enabled := true }

/-- Rule whose input transformer throws on every event (spec section 8,
Scenario E). -/
def rule_broken : TriggerRule :=
  { rule_id := "rule_broken",
    event_types := ["user.lifecycle.create"],
    flow_id := "flow_mfa_remediation",
    condition := none,
    input_transformer := fun _ => Except.error "missing field department",
    enabled := true }

/-- Sample user-created lifecycle event. -/
def evt_created : SSOEvent :=
  { event_id := "evt_001",
    event_type := "user.lifecycle.create",
    timestamp := "2025-12-04T10:00:00Z",
    user_id := "00u123456",
    user_email := "newuser@company.com",
    metadata := [] }

/-- Fresh trigger state over a given rule registry. -/
def trigger0 (rules : List TriggerRule) : TriggerState :=
  { rules := rules, exec := initState, correlations := [], event_history := [] }

/-- Empty callback registry. -/
def cbs_empty : Callbacks :=
  { on_start := [], on_complete := [], on_error := [] }

/-- Callback registry whose every observer throws. -/
def cbs_throwing : Callbacks :=
  { on_start := [fun _ => Except.error "observer boom"],
    on_complete := [fun _ => Except.error "observer boom", fun _ => Except.error "again"],
    on_error := [fun _ => Except.error "observer boom"] }

theorem timeout_outcome_terminal (conn : Connector) (eid elapsed polls : Nat) :
    (timeout_outcome conn eid elapsed polls).status.isTerminal = true := by
  unfold timeout_outcome
  by_cases h : (conn.get_flow_status eid elapsed).status.toExecStatus.isTerminal = true
  · rw [if_pos h]
    exact h
  · rw [if_neg h]
    rfl

theorem timeout_outcome_elapsed (conn : Connector) (eid elapsed polls : Nat) :
    (timeout_outcome conn eid elapsed polls).elapsed = elapsed := by
  unfold timeout_outcome
  by_cases h : (conn.get_flow_status eid elapsed).status.toExecStatus.isTerminal = true
  · rw [if_pos h]
  · rw [if_neg h]

theorem poll_loop_terminal (conn : Connector) (eid pi tmo : Nat) :
    ∀ fuel elapsed polls, (poll_loop conn eid pi tmo elapsed polls fuel).status.isTerminal = true := by
  intro fuel
  induction fuel with
  | zero => intro elapsed polls; exact timeout_outcome_terminal conn eid elapsed polls
  | succ fuel ih =>
      intro elapsed polls
      unfold poll_loop
      by_cases h1 : tmo ≤ elapsed
      · simp only [if_pos h1]
        exact timeout_outcome_terminal conn eid elapsed polls
      · simp only [if_neg h1]
        by_cases h2 : (conn.get_flow_status eid elapsed).status.toExecStatus.isTerminal = true
        · simp only [if_pos h2]
          exact h2
        · simp only [if_neg h2]
          exact ih (elapsed + pi) (polls + 1)

theorem execute_flow_core_result_id (conn : Connector) (st : ExecState)
    (f : String) (i : List (String × String)) (t p : Nat) (w : Bool) :
    (execute_flow_core conn st f i t p w).result.execution_id = st.next_id := by
  unfold execute_flow_core
  cases conn.invoke_flow f i with
  | error msg => rfl
  | ok s0 => simp only; split <;> rfl

theorem execute_flow_core_next_id (conn : Connector) (st : ExecState)
    (f : String) (i : List (String × String)) (t p : Nat) (w : Bool) :
    (execute_flow_core conn st f i t p w).state.next_id = st.next_id + 1 := by
  unfold execute_flow_core
  cases conn.invoke_flow f i with
  | error msg => rfl
  | ok s0 => simp only; split <;> rfl

theorem execute_flow_core_flow_id (conn : Connector) (st : ExecState)
    (f : String) (i : List (String × String)) (t p : Nat) (w : Bool) :
    (execute_flow_core conn st f i t p w).result.flow_id = f := by
  unfold execute_flow_core
  cases conn.invoke_flow f i with
  | error msg => rfl
  | ok s0 => simp only; split <;> rfl

theorem execute_flow_core_result_wf (conn : Connector) (st : ExecState)
    (f : String) (i : List (String × String)) (t p : Nat) (w : Bool) :
    (execute_flow_core conn st f i t p w).result.completed_at.isSome =
      (execute_flow_core conn st f i t p w).result.status.isTerminal := by
  unfold execute_flow_core
  cases conn.invoke_flow f i with
  | error msg => rfl
  | ok s0 =>
      simp only
      split
      · simp only [Option.isSome_some, poll_loop_terminal]
      · by_cases hterm : s0.toExecStatus.isTerminal = true
        · simp [hterm]
        · simp [hterm]

theorem execute_flow_core_wait_terminal (conn : Connector) (st : ExecState)
    (f : String) (i : List (String × String)) (t p : Nat) :
    (execute_flow_core conn st f i t p true).result.status.isTerminal = true := by
  unfold execute_flow_core
  cases conn.invoke_flow f i with
  | error msg => rfl
  | ok s0 =>
      simp only
      split
      · exact poll_loop_terminal conn st.next_id p t (exec_fuel t p) 0 0
      · rename_i hcond
        simp only [Bool.true_and, Bool.not_eq_true', Bool.not_eq_true] at hcond
        simpa using hcond

theorem update_by_id_of_ne (hist : List ExecutionResult) (eid : Nat) (r : ExecutionResult)
    (h : ∀ x ∈ hist, x.execution_id ≠ eid) : update_by_id hist eid r = hist := by
  unfold update_by_id
  have : ∀ x ∈ hist, (if x.execution_id = eid then r else x) = x := by
    intro x hx
    rw [if_neg (h x hx)]
  rw [List.map_congr_left this, List.map_id']

theorem update_by_id_ids (hist : List ExecutionResult) (eid : Nat) (r : ExecutionResult)
    (h : r.execution_id = eid) :
    (update_by_id hist eid r).map ExecutionResult.execution_id =
      hist.map ExecutionResult.execution_id := by
  unfold update_by_id
  rw [List.map_map]
  apply List.map_congr_left
  intro x _
  by_cases hx : x.execution_id = eid
  · simp [hx, h]
  · simp [hx]

theorem mem_update_by_id (hist : List ExecutionResult) (eid : Nat) (r : ExecutionResult)
    (y : ExecutionResult) (hy : y ∈ update_by_id hist eid r) :
    y = r ∨ y ∈ hist := by
  unfold update_by_id at hy
  obtain ⟨x, hx, hxy⟩ := List.mem_map.mp hy
  by_cases hid : x.execution_id = eid
  · rw [if_pos hid] at hxy
    exact Or.inl hxy.symm
  · rw [if_neg hid] at hxy
    exact Or.inr (hxy ▸ hx)

theorem execute_flow_core_history (conn : Connector) (st : ExecState)
    (f : String) (i : List (String × String)) (t p : Nat) (w : Bool)
    (hb : ∀ x ∈ st.history, x.execution_id < st.next_id) :
    (execute_flow_core conn st f i t p w).state.history =
      st.history ++ [(execute_flow_core conn st f i t p w).result] := by
  unfold execute_flow_core
  cases hinv : conn.invoke_flow f i with
  | error msg => rfl
  | ok s0 =>
      simp only
      split
      · simp only
        unfold update_by_id
        rw [List.map_append]
        have h1 : ∀ x ∈ st.history,
            (if x.execution_id = st.next_id then
              ({ execution_id := st.next_id, flow_id := f,
                 status := (poll_loop conn st.next_id p t 0 0 (exec_fuel t p)).status,
                 started_at := st.clock,
                 completed_at := some (st.clock + (poll_loop conn st.next_id p t 0 0 (exec_fuel t p)).elapsed),
                 input_data := i,
                 output_data := if (poll_loop conn st.next_id p t 0 0 (exec_fuel t p)).status = ExecStatus.success then (poll_loop conn st.next_id p t 0 0 (exec_fuel t p)).output_data else [],
                 error := if (poll_loop conn st.next_id p t 0 0 (exec_fuel t p)).status = ExecStatus.failed ∨ (poll_loop conn st.next_id p t 0 0 (exec_fuel t p)).status = ExecStatus.timed_out then (poll_loop conn st.next_id p t 0 0 (exec_fuel t p)).error else none } : ExecutionResult)
            else x) = x := by
          intro x hx
          rw [if_neg (Nat.ne_of_lt (hb x hx))]
        rw [List.map_congr_left h1, List.map_id']
        simp
      · rfl

theorem execute_flow_core_preserves (conn : Connector) (st : ExecState)
    (f : String) (i : List (String × String)) (t p : Nat) (w : Bool)
    (h : HistoryWF st) :
    HistoryWF (execute_flow_core conn st f i t p w).state ∧
      ∀ r ∈ st.history, r ∈ (execute_flow_core conn st f i t p w).state.history := by
  obtain ⟨hiff, hbound, hnodup⟩ := h
  have hhist := execute_flow_core_history conn st f i t p w hbound
  have hid := execute_flow_core_result_id conn st f i t p w
  have hnext := execute_flow_core_next_id conn st f i t p w
  refine ⟨⟨?_, ?_, ?_⟩, ?_⟩
  · intro r hr
    rw [hhist] at hr
    rcases List.mem_append.mp hr with hl | hr1
    · exact hiff r hl
    · rw [List.mem_singleton.mp hr1]
      exact execute_flow_core_result_wf conn st f i t p w
  · intro r hr
    rw [hhist] at hr
    rw [hnext]
    rcases List.mem_append.mp hr with hl | hr1
    · exact Nat.lt_succ_of_lt (hbound r hl)
    · rw [List.mem_singleton.mp hr1, hid]
      exact Nat.lt_succ_self st.next_id
  · rw [hhist, List.map_append]
    simp only [List.map_cons, List.map_nil, List.nodup_append, List.nodup_cons,
      List.not_mem_nil, not_false_eq_true, List.nodup_nil, and_true, true_and]
    constructor
    · exact hnodup
    · intro a ha
      simp only [List.mem_singleton]
      intro hcontra
      obtain ⟨x, hx, hxa⟩ := List.mem_map.mp ha
      rw [hcontra, hid] at hxa
      exact absurd hxa (Nat.ne_of_lt (hbound x hx))
  · intro r hr
    rw [hhist]
    exact List.mem_append_left _ hr

theorem mem_update_by_id_of_ne (hist : List ExecutionResult) (eid : Nat)
    (r1 r : ExecutionResult) (hr : r ∈ hist) (hne : r.execution_id ≠ eid) :
    r ∈ update_by_id hist eid r1 := by
  unfold update_by_id
  have hmem := List.mem_map_of_mem (fun x => if x.execution_id = eid then r1 else x) hr
  simpa [hne] using hmem

theorem get_execution_status_preserves (conn : Connector) (st : ExecState) (eid : Nat)
    (h : HistoryWF st) :
    HistoryWF (get_execution_status conn st eid).2 ∧
      ∀ r ∈ st.history, r.status.isTerminal = true →
        r ∈ (get_execution_status conn st eid).2.history := by
  obtain ⟨hiff, hbound, hnodup⟩ := h
  unfold get_execution_status
  cases hfind : st.history.find? (fun r => r.execution_id == eid) with
  | none => exact ⟨⟨hiff, hbound, hnodup⟩, fun r hr _ => hr⟩
  | some r0 =>
      have hr0mem : r0 ∈ st.history := List.mem_of_find?_eq_some hfind
      have hr0id : r0.execution_id = eid := by
        have h2 := List.find?_some hfind
        simpa using h2
      by_cases hterm : r0.status.isTerminal = true
      · simp only [hterm, if_true]
        exact ⟨⟨hiff, hbound, hnodup⟩, fun r hr _ => hr⟩
      · dsimp only
        rw [if_neg hterm]
        simp only
        refine ⟨⟨?_, ?_, ?_⟩, ?_⟩
        · intro r hr
          rcases mem_update_by_id _ _ _ r hr with hrr | hrold
          · rw [hrr]
            by_cases hterm2 :
                ((conn.get_flow_status eid st.clock).status.toExecStatus).isTerminal = true
            · simp [refresh_entry, hterm2]
            · simp [refresh_entry, hterm2]
          · exact hiff r hrold
        · intro r hr
          rcases mem_update_by_id _ _ _ r hr with hrr | hrold
          · rw [hrr]
            simpa [refresh_entry] using hbound r0 hr0mem
          · exact hbound r hrold
        · rw [update_by_id_ids]
          · exact hnodup
          · simpa [refresh_entry] using hr0id
        · intro r hr hrterm
          have hne : r.execution_id ≠ eid := by
            intro hcontra
            have hreq : r = r0 := by
              apply List.inj_on_of_nodup_map hnodup hr hr0mem
              rw [hcontra, hr0id]
            rw [hreq] at hrterm
            exact hterm hrterm
          exact mem_update_by_id_of_ne st.history eid _ r hr hne

theorem run_requests_preserves (conn : Connector) (t p : Nat) :
    ∀ (reqs : List FlowRequest) (st : ExecState), HistoryWF st →
      HistoryWF (run_requests conn t p reqs st).2 ∧
        ∀ r ∈ st.history, r ∈ (run_requests conn t p reqs st).2.history := by
  intro reqs
  induction reqs with
  | nil => exact fun st h => ⟨h, fun r hr => hr⟩
  | cons q qs ih =>
      intro st h
      have h1 := execute_flow_core_preserves conn st q.flow_id q.input_data t p true h
      have h2 := ih (execute_flow_core conn st q.flow_id q.input_data t p true).state h1.1
      exact ⟨h2.1, fun r hr => h2.2 r (h1.2 r hr)⟩

theorem dispatch_rule_preserves (conn : Connector) (st : ExecState) (e : SSOEvent)
    (ru : TriggerRule) (t p : Nat) (w : Bool) (h : HistoryWF st) :
    HistoryWF (dispatch_rule conn st e ru t p w).2.2 ∧
      ∀ r ∈ st.history, r ∈ (dispatch_rule conn st e ru t p w).2.2.history := by
  unfold dispatch_rule
  cases htr : ru.input_transformer e with
  | error msg =>
      obtain ⟨hiff, hbound, hnodup⟩ := h
      exact ⟨⟨hiff, fun r hr => Nat.lt_succ_of_lt (hbound r hr), hnodup⟩, fun r hr => hr⟩
  | ok input => exact execute_flow_core_preserves conn st ru.flow_id input t p w h

theorem process_rules_preserves (conn : Connector) (e : SSOEvent) (t p : Nat) (w : Bool) :
    ∀ (rules : List TriggerRule) (st : ExecState), HistoryWF st →
      HistoryWF (process_rules conn e t p w rules st).2.2 ∧
        ∀ r ∈ st.history, r ∈ (process_rules conn e t p w rules st).2.2.history := by
  intro rules
  induction rules with
  | nil => exact fun st h => ⟨h, fun r hr => hr⟩
  | cons ru rus ih =>
      intro st h
      have h1 := dispatch_rule_preserves conn st e ru t p w h
      have h2 := ih (dispatch_rule conn st e ru t p w).2.2 h1.1
      exact ⟨h2.1, fun r hr => h2.2 r (h1.2 r hr)⟩

theorem step_preserves (st st2 : ExecState) (hs : Step st st2) (h : HistoryWF st) :
    HistoryWF st2 ∧ ∀ r ∈ st.history, r.status.isTerminal = true → r ∈ st2.history := by
  cases hs with
  | exec conn st flow_id input_data timeout poll_interval wait =>
      have h1 := execute_flow_core_preserves conn st flow_id input_data timeout poll_interval wait h
      exact ⟨h1.1, fun r hr _ => h1.2 r hr⟩
  | query conn st eid => exact get_execution_status_preserves conn st eid h
  | multi conn st reqs timeout poll_interval parallel order =>
      have h1 := run_requests_preserves conn timeout poll_interval reqs st h
      unfold execute_multiple_flows
      by_cases hp : parallel = true
      · simp only [hp, if_true]
        exact ⟨h1.1, fun r hr _ => h1.2 r hr⟩
      · have hp2 : parallel = false := by simpa using hp
        simp only [hp2, Bool.false_eq_true, if_false]
        exact ⟨h1.1, fun r hr _ => h1.2 r hr⟩
  | event conn rules st corr ehist e timeout poll_interval wait =>
      have h1 := process_rules_preserves conn e timeout poll_interval wait
        (matching_rules rules e) st h
      exact ⟨h1.1, fun r hr _ => h1.2 r hr⟩

theorem reached_wf (st : ExecState) (h : Reached st) : HistoryWF st := by
  induction h with
  | init =>
      refine ⟨?_, ?_, ?_⟩ <;> simp [initState]
  | step st st2 _ hs ih => exact (step_preserves st st2 hs ih).1

theorem steps_preserve (st st2 : ExecState) (h : Steps st st2) (hwf : HistoryWF st) :
    HistoryWF st2 ∧ ∀ r ∈ st.history, r.status.isTerminal = true → r ∈ st2.history := by
  induction h with
  | refl => exact ⟨hwf, fun r hr _ => hr⟩
  | tail hab hbc ih =>
      rename_i b c
      obtain ⟨hwfb, hkeep⟩ := ih
      obtain ⟨hwfc, hkeep2⟩ := step_preserves b c hbc hwfb
      exact ⟨hwfc, fun r hr hterm => hkeep2 r (hkeep r hr hterm) hterm⟩

theorem poll_loop_no_terminal (conn : Connector) (eid pi tmo : Nat)
    (hpi : 0 < pi)
    (hnt : ∀ t2, ((conn.get_flow_status eid t2).status.toExecStatus).isTerminal = false) :
    ∀ fuel elapsed polls, tmo ≤ elapsed + fuel * pi → elapsed < tmo + pi →
      ∃ e2 p2, poll_loop conn eid pi tmo elapsed polls fuel = timeout_outcome conn eid e2 p2 ∧
        tmo ≤ e2 ∧ e2 < tmo + pi ∧ elapsed ≤ e2 := by
  intro fuel
  induction fuel with
  | zero =>
      intro elapsed polls hfuel hlt
      refine ⟨elapsed, polls, rfl, ?_, hlt, Nat.le_refl elapsed⟩
      simpa using hfuel
  | succ fuel ih =>
      intro elapsed polls hfuel hlt
      unfold poll_loop
      by_cases h1 : tmo ≤ elapsed
      · exact ⟨elapsed, polls, by rw [if_pos h1], h1, hlt, Nat.le_refl elapsed⟩
      · rw [if_neg h1, if_neg (by rw [hnt elapsed]; exact Bool.false_ne_true)]
        have hstep : tmo ≤ elapsed + pi + fuel * pi := by
          have : (fuel + 1) * pi = fuel * pi + pi := Nat.succ_mul fuel pi
          omega
        have hlt2 : elapsed + pi < tmo + pi := by omega
        obtain ⟨e2, p2, heq, hb1, hb2, hb3⟩ := ih (elapsed + pi) (polls + 1) hstep hlt2
        exact ⟨e2, p2, heq, hb1, hb2, by omega⟩

theorem timeout_outcome_no_terminal (conn : Connector) (eid : Nat)
    (hnt : ∀ t2, ((conn.get_flow_status eid t2).status.toExecStatus).isTerminal = false)
    (elapsed polls : Nat) :
    timeout_outcome conn eid elapsed polls =
      { status := ExecStatus.timed_out, output_data := [],
        error := some "Execution timed out", elapsed := elapsed, polls := polls + 1 } := by
  unfold timeout_outcome
  rw [if_neg (by rw [hnt elapsed]; exact Bool.false_ne_true)]

theorem exec_fuel_enough (tmo pi : Nat) (hpi : 0 < pi) :
    tmo ≤ 0 + exec_fuel tmo pi * pi := by
  unfold exec_fuel
  have hdm := Nat.div_add_mod tmo pi
  have hmod := Nat.mod_lt tmo hpi
  have hmul : (tmo / pi + 2) * pi = pi * (tmo / pi) + 2 * pi := by ring
  omega

theorem foldl_set_length (evs : List (Nat × ExecutionResult)) :
    ∀ acc : List (Option ExecutionResult),
      (evs.foldl (fun a pr => a.set pr.1 (some pr.2)) acc).length = acc.length := by
  induction evs with
  | nil => intro acc; rfl
  | cons pr rest ih =>
      intro acc
      simp only [List.foldl_cons]
      rw [ih, List.length_set]

theorem foldl_set_not_mem (evs : List (Nat × ExecutionResult)) :
    ∀ (acc : List (Option ExecutionResult)) (i : Nat), i ∉ evs.map Prod.fst →
      (evs.foldl (fun a pr => a.set pr.1 (some pr.2)) acc)[i]? = acc[i]? := by
  induction evs with
  | nil => intro acc i _; rfl
  | cons pr rest ih =>
      intro acc i hmem
      simp only [List.map_cons, List.mem_cons, not_or] at hmem
      simp only [List.foldl_cons]
      rw [ih (acc.set pr.1 (some pr.2)) i hmem.2]
      exact List.getElem?_set_ne (fun h => hmem.1 h.symm)

theorem foldl_set_mem (evs : List (Nat × ExecutionResult)) :
    ∀ (acc : List (Option ExecutionResult)) (i : Nat) (r : ExecutionResult),
      (evs.map Prod.fst).Nodup → (i, r) ∈ evs → i < acc.length →
      (evs.foldl (fun a pr => a.set pr.1 (some pr.2)) acc)[i]? = some (some r) := by
  induction evs with
  | nil => intro acc i r _ hmem _; exact absurd hmem (List.not_mem_nil (i, r))
  | cons pr rest ih =>
      intro acc i r hnodup hmem hlen
      simp only [List.map_cons, List.nodup_cons] at hnodup
      simp only [List.foldl_cons]
      rcases List.mem_cons.mp hmem with hhead | htail
      · have hi : pr.1 = i := by rw [← hhead]
        have hr : pr.2 = r := by rw [← hhead]
        have hnot : i ∉ rest.map Prod.fst := hi ▸ hnodup.1
        rw [foldl_set_not_mem rest (acc.set pr.1 (some pr.2)) i hnot, hi, hr]
        rw [List.getElem?_set_self]
        simp [hlen]
      · have hne : i ∈ rest.map Prod.fst :=
          List.mem_map.mpr ⟨(i, r), htail, rfl⟩
        exact ih (acc.set pr.1 (some pr.2)) i r hnodup.2 htail
          (by rw [List.length_set]; exact hlen)

theorem join_by_index_perm (n : Nat) (rs : List ExecutionResult) (order : List Nat)
    (hlen : rs.length = n) (hperm : order.Perm (List.range n)) :
    join_by_index n rs order = rs := by
  unfold join_by_index
  have horder_nodup : order.Nodup := hperm.nodup_iff.mpr (List.nodup_range n)
  have hfst : (order.map (fun i => (i, rs.getD i default))).map Prod.fst = order := by
    rw [List.map_map]
    exact (List.map_congr_left (fun a _ => rfl)).trans (List.map_id' order)
  have hslots : ∀ i, i < n →
      ((order.map (fun i => (i, rs.getD i default))).foldl
        (fun a pr => a.set pr.1 (some pr.2))
        (List.replicate n (none : Option ExecutionResult)))[i]? =
        some (some (rs.getD i default)) := by
    intro i hi
    apply foldl_set_mem
    · rw [hfst]; exact horder_nodup
    · exact List.mem_map.mpr ⟨i, hperm.mem_iff.mpr (List.mem_range.mpr hi), rfl⟩
    · rw [List.length_replicate]; exact hi
  have hlen2 : ((order.map (fun i => (i, rs.getD i default))).foldl
      (fun a pr => a.set pr.1 (some pr.2))
      (List.replicate n (none : Option ExecutionResult))).length = n := by
    rw [foldl_set_length, List.length_replicate]
  have hall : ((order.map (fun i => (i, rs.getD i default))).foldl
      (fun a pr => a.set pr.1 (some pr.2))
      (List.replicate n (none : Option ExecutionResult))) = rs.map some := by
    apply List.ext_getElem?
    intro i
    by_cases hi : i < n
    · rw [hslots i hi]
      rw [List.getElem?_eq_getElem (by rw [List.length_map, hlen]; exact hi)]
      simp only [List.getElem_map]
      rw [List.getD_eq_getElem rs default (by rw [hlen]; exact hi)]
    · rw [List.getElem?_eq_none (by rw [hlen2]; omega),
        List.getElem?_eq_none (by rw [List.length_map, hlen]; omega)]
  rw [hall, List.map_map]
  have hcomp : ((fun o => Option.getD o default) ∘ some) = (id : ExecutionResult → ExecutionResult) := by
    funext x
    rfl
  rw [hcomp, List.map_id]

theorem run_requests_length (conn : Connector) (t p : Nat) :
    ∀ (reqs : List FlowRequest) (st : ExecState),
      (run_requests conn t p reqs st).1.length = reqs.length := by
  intro reqs
  induction reqs with
  | nil => intro st; rfl
  | cons q qs ih =>
      intro st
      simp only [run_requests, List.length_cons]
      rw [ih]

theorem run_requests_index (conn : Connector) (t p : Nat) :
    ∀ (reqs : List FlowRequest) (st : ExecState) (i : Nat), i < reqs.length →
      ∃ sti, (run_requests conn t p reqs st).1.getD i default =
        (execute_flow_core conn sti (reqs.getD i default).flow_id
          (reqs.getD i default).input_data t p true).result := by
  intro reqs
  induction reqs with
  | nil => intro st i hi; exact absurd hi (by simp)
  | cons q qs ih =>
      intro st i hi
      cases i with
      | zero => exact ⟨st, rfl⟩
      | succ j =>
          have hj : j < qs.length := by simpa using hi
          obtain ⟨sti, heq⟩ := ih
            (execute_flow_core conn st q.flow_id q.input_data t p true).state j hj
          exact ⟨sti, heq⟩

theorem dispatch_rule_error (conn : Connector) (st : ExecState) (e : SSOEvent)
    (ru : TriggerRule) (t p : Nat) (w : Bool) (msg : String)
    (htr : ru.input_transformer e = Except.error msg) :
    (dispatch_rule conn st e ru t p w).1 =
      { execution_id := st.next_id, flow_id := ru.flow_id,
        status := ExecStatus.failed, started_at := st.clock,
        completed_at := some st.clock, input_data := [], output_data := [],
        error := some ("Input transformation failed: " ++ msg) } ∧
    (dispatch_rule conn st e ru t p w).2.1 = [] := by
  unfold dispatch_rule
  rw [htr]
  exact ⟨rfl, rfl⟩

theorem dispatch_rule_ok (conn : Connector) (st : ExecState) (e : SSOEvent)
    (ru : TriggerRule) (t p : Nat) (w : Bool) (input : List (String × String))
    (htr : ru.input_transformer e = Except.ok input) :
    (dispatch_rule conn st e ru t p w).1 =
      (execute_flow_core conn st ru.flow_id input t p w).result ∧
    (dispatch_rule conn st e ru t p w).2.1 =
      [(execute_flow_core conn st ru.flow_id input t p w).result.execution_id] := by
  unfold dispatch_rule
  rw [htr]
  exact ⟨rfl, rfl⟩

theorem dispatch_rule_result_id (conn : Connector) (st : ExecState) (e : SSOEvent)
    (ru : TriggerRule) (t p : Nat) (w : Bool) :
    (dispatch_rule conn st e ru t p w).1.execution_id = st.next_id := by
  unfold dispatch_rule
  cases htr : ru.input_transformer e with
  | error msg => rfl
  | ok input => exact execute_flow_core_result_id conn st ru.flow_id input t p w

theorem dispatch_rule_next_id (conn : Connector) (st : ExecState) (e : SSOEvent)
    (ru : TriggerRule) (t p : Nat) (w : Bool) :
    (dispatch_rule conn st e ru t p w).2.2.next_id = st.next_id + 1 := by
  unfold dispatch_rule
  cases htr : ru.input_transformer e with
  | error msg => rfl
  | ok input => exact execute_flow_core_next_id conn st ru.flow_id input t p w

theorem process_rules_length (conn : Connector) (e : SSOEvent) (t p : Nat) (w : Bool) :
    ∀ (rules : List TriggerRule) (st : ExecState),
      (process_rules conn e t p w rules st).1.length = rules.length := by
  intro rules
  induction rules with
  | nil => intro st; rfl
  | cons ru rus ih =>
      intro st
      simp only [process_rules, List.length_cons]
      rw [ih]

theorem process_rules_index (conn : Connector) (e : SSOEvent) (t p : Nat) (w : Bool) :
    ∀ (rules : List TriggerRule) (st : ExecState) (i : Nat), i < rules.length →
      ∃ sti, sti.next_id = st.next_id + i ∧
        (process_rules conn e t p w rules st).1.getD i default =
          (dispatch_rule conn sti e (rules.getD i default) t p w).1 := by
  intro rules
  induction rules with
  | nil => intro st i hi; exact absurd hi (by simp)
  | cons ru rus ih =>
      intro st i hi
      cases i with
      | zero => exact ⟨st, by omega, rfl⟩
      | succ j =>
          have hj : j < rus.length := by simpa using hi
          obtain ⟨sti, hnext, heq⟩ := ih (dispatch_rule conn st e ru t p w).2.2 j hj
          refine ⟨sti, ?_, heq⟩
          rw [hnext, dispatch_rule_next_id]
          omega

theorem process_rules_ids_mem (conn : Connector) (e : SSOEvent) (t p : Nat) (w : Bool) :
    ∀ (rules : List TriggerRule) (st : ExecState) (i : Nat) (hi : i < rules.length)
      (input : List (String × String)),
      (rules.getD i default).input_transformer e = Except.ok input →
      ((process_rules conn e t p w rules st).1.getD i default).execution_id ∈
        (process_rules conn e t p w rules st).2.1 := by
  intro rules
  induction rules with
  | nil => intro st i hi; exact absurd hi (by simp)
  | cons ru rus ih =>
      intro st i hi input htr
      cases i with
      | zero =>
          have hd := dispatch_rule_ok conn st e ru t p w input htr
          simp only [process_rules]
          rw [List.getD_cons_zero, hd.1, hd.2]
          exact List.mem_append_left _ (List.mem_singleton.mpr rfl)
      | succ j =>
          have hj : j < rus.length := by simpa using hi
          have := ih (dispatch_rule conn st e ru t p w).2.2 j hj input htr
          simp only [process_rules]
          rw [List.getD_cons_succ]
          exact List.mem_append_right _ this

theorem corr_get_corr_add_self (cs : List (String × List Nat)) (k : String)
    (ids : List Nat) : corr_get (corr_add cs k ids) k = corr_get cs k ++ ids := by
  unfold corr_add corr_get
  cases hfind : cs.find? (fun pr => pr.1 == k) with
  | none =>
      simp only [Option.isSome_none, Bool.false_eq_true, if_false, hfind]
      rw [List.find?_append, hfind]
      simp
  | some p0 =>
      have hp0 := List.find?_some hfind
      have hp02 : p0.1 = k := by simpa using hp0
      simp only [hfind, Option.isSome_some, if_true]
      rw [List.find?_map (fun pr => if pr.1 == k then (pr.1, pr.2 ++ ids) else pr) cs]
      have hpred : ((fun pr : String × List Nat => pr.1 == k) ∘
          (fun pr : String × List Nat => if pr.1 == k then (pr.1, pr.2 ++ ids) else pr)) =
          (fun pr : String × List Nat => pr.1 == k) := by
        funext x
        by_cases hx : x.1 = k
        · simp [hx]
        · simp [hx]
      rw [hpred, hfind]
      simp [hp02]

theorem corr_get_corr_add_other (cs : List (String × List Nat)) (k k2 : String)
    (ids : List Nat) (hne : k2 ≠ k) :
    corr_get (corr_add cs k ids) k2 = corr_get cs k2 := by
  unfold corr_add corr_get
  cases hfind : cs.find? (fun pr => pr.1 == k) with
  | none =>
      simp only [hfind, Option.isSome_none, Bool.false_eq_true, if_false]
      rw [List.find?_append]
      have hsingle : ([(k, ids)].find? (fun pr => pr.1 == k2)) = none := by
        have hkk : (k == k2) = false := beq_eq_false_iff_ne.mpr (fun h => hne h.symm)
        simp [List.find?, hkk]
      rw [hsingle]
      simp
  | some p0 =>
      simp only [hfind, Option.isSome_some, if_true]
      rw [List.find?_map (fun pr => if pr.1 == k then (pr.1, pr.2 ++ ids) else pr) cs]
      have hpred : ((fun pr : String × List Nat => pr.1 == k2) ∘
          (fun pr : String × List Nat => if pr.1 == k then (pr.1, pr.2 ++ ids) else pr)) =
          (fun pr : String × List Nat => pr.1 == k2) := by
        funext x
        by_cases hx : x.1 = k
        · simp [hx]
        · simp [hx]
      rw [hpred]
      cases hfind2 : cs.find? (fun pr => pr.1 == k2) with
      | none => rfl
      | some q =>
          have hq := List.find?_some hfind2
          have hq2 : q.1 = k2 := by simpa using hq
          have hqk : ¬(q.1 = k) := by rw [hq2]; exact hne
          simp [hqk]

/-- C2, counterexample.  The claim says the status field ranges over exactly
six values with a distinct TimedOut member; the workflow status enumeration
declared by the repository (QUICK_REFERENCE.md, Workflow Status Values) has
exactly five members — pending, running, success, failed, cancelled — and no
timed-out value at all. -/
theorem C2_counterexample :
    WorkflowStatus.all.length = 5 ∧
    WorkflowStatus.all.map WorkflowStatus.value =
      ["pending", "running", "success", "failed", "cancelled"] ∧
    (WorkflowStatus.all.map WorkflowStatus.value).contains "timed_out" = false := by
  refine ⟨rfl, rfl, ?_⟩
  decide

/-- C2, amended.  Every ExecutionResult status is one of the six
executor-level statuses Pending, Running, Success, Failed, Cancelled,
TimedOut (the last spec-modelled, produced locally on timeout), while the
connector's declared WorkflowStatus enumeration contains exactly five
statuses, has no timed-out member, and its embedding into the executor
statuses never yields timed_out. -/
theorem C2_amended_statuses :
    (∀ r : ExecutionResult, r.status ∈ ExecStatus.all) ∧
    ExecStatus.all.length = 6 ∧
    ExecStatus.timed_out ∈ ExecStatus.all ∧
    (∀ s : WorkflowStatus, s ∈ WorkflowStatus.all) ∧
    WorkflowStatus.all.length = 5 ∧
    (WorkflowStatus.all.map WorkflowStatus.toExecStatus).contains ExecStatus.timed_out = false := by
  refine ⟨?_, rfl, ?_, ?_, rfl, ?_⟩
  · intro r
    cases hr : r.status <;> decide
  · decide
  · intro s
    cases s <;> decide
  · decide

/-- C3.  For every flow-id filter (including none), get_success_rate is the
number of Success executions divided by the number of terminal executions
among matching history entries, as an exact rational, and is exactly 0 when
no matching terminal execution exists; the function is total, so no NaN,
undefined or error is possible. -/
theorem C3_success_rate (st : ExecState) (flowFilter : Option String) :
    get_success_rate st flowFilter =
      (success_count st flowFilter : ℚ) / (terminal_count st flowFilter : ℚ) ∧
    (terminal_count st flowFilter = 0 → get_success_rate st flowFilter = 0) := by
  constructor
  · unfold get_success_rate
    by_cases h : terminal_count st flowFilter = 0
    · rw [if_pos h, h]
      simp
    · rw [if_neg h]
  · intro h
    unfold get_success_rate
    rw [if_pos h]

/-- Witness for C3 at a concrete state with no terminal executions. -/
theorem C3_success_rate_witness :
    terminal_count initState none = 0 ∧ get_success_rate initState none = 0 :=
  ⟨rfl, (C3_success_rate initState none).2 rfl⟩

/-- C10.  A call of execute_flow that does not specify wait_for_completion
uses the declared default true: it behaves exactly like an explicit
wait_for_completion=true call and returns a terminal result after the
suspend-poll — never a fire-and-forget Pending/Running result. -/
theorem C10_default_wait (conn : Connector) (st : ExecState) (f : String)
    (i : List (String × String)) (t p : Nat) (hp : 0 < p) :
    execute_flow_default conn st f i t p = execute_flow_core conn st f i t p true ∧
    (execute_flow_default conn st f i t p).result.status.isTerminal = true :=
  ⟨rfl, execute_flow_core_wait_terminal conn st f i t p⟩

/-- Witness for C10 at a concrete connector and arguments. -/
theorem C10_default_wait_witness :
    0 < 2 ∧
    (execute_flow_default mockConn initState "flow_new_hire_onboarding" [] 5 2).result.status.isTerminal = true :=
  ⟨by decide,
   (C10_default_wait mockConn initState "flow_new_hire_onboarding" [] 5 2 (by decide)).2⟩

/-- C7.  Exceptions thrown by registered on_start, on_complete or on_error
callbacks are caught inside the executor and recorded in the log: the
returned ExecutionResult and the executor state are identical for any two
callback registries, and every registered callback of each registry entry is
fired exactly once (the log is the full map of run_callback over the
registry), so a throwing callback never reaches the caller nor stops the
remaining callbacks. -/
theorem C7_callback_isolation (conn : Connector) (st : ExecState) (f : String)
    (i : List (String × String)) (t p : Nat) (w : Bool) (cbs cbs2 : Callbacks) :
    (execute_flow_with_callbacks conn cbs st f i t p w).result =
      (execute_flow_with_callbacks conn cbs2 st f i t p w).result ∧
    (execute_flow_with_callbacks conn cbs st f i t p w).state =
      (execute_flow_with_callbacks conn cbs2 st f i t p w).state ∧
    (execute_flow_with_callbacks conn cbs st f i t p w).log.complete_log =
      (if (execute_flow_core conn st f i t p w).result.status.isTerminal then
        cbs.on_complete.map (fun g => run_callback g (execute_flow_core conn st f i t p w).result)
      else []) ∧
    (execute_flow_with_callbacks conn cbs st f i t p w).log.error_log =
      (if (execute_flow_core conn st f i t p w).result.status = ExecStatus.failed ∨
          (execute_flow_core conn st f i t p w).result.status = ExecStatus.timed_out then
        cbs.on_error.map (fun g => run_callback g (execute_flow_core conn st f i t p w).result)
      else []) ∧
    (execute_flow_with_callbacks conn cbs st f i t p w).log.start_log =
      (match (execute_flow_core conn st f i t p w).started with
       | none => []
       | some r0 => cbs.on_start.map (fun g => run_callback g r0)) :=
  ⟨rfl, rfl, rfl, rfl, rfl⟩

/-- Witness for C7: a registry of throwing observers yields the same result
as the empty registry. -/
theorem C7_callback_isolation_witness :
    (execute_flow_with_callbacks mockConn cbs_throwing initState "flow_a" [] 5 2 true).result =
      (execute_flow_with_callbacks mockConn cbs_empty initState "flow_a" [] 5 2 true).result :=
  (C7_callback_isolation mockConn initState "flow_a" [] 5 2 true cbs_throwing cbs_empty).1

/-- C8.  When wait_for_completion holds and the backend accepts the
invocation but never reports a terminal status, execute_flow returns — it
does not raise — an ExecutionResult whose status is TimedOut, completed at
the first poll tick at or past the timeout (so within one poll interval of
it), and the loop ends through timeout_outcome, which performs one
best-effort final status read before judging TimedOut. -/
theorem C8_timeout_result (conn : Connector) (st : ExecState) (f : String)
    (i : List (String × String)) (tmo p : Nat) (s0 : WorkflowStatus)
    (hinv : conn.invoke_flow f i = Except.ok s0)
    (hs0 : s0.toExecStatus.isTerminal = false)
    (hnt : ∀ eid t2, ((conn.get_flow_status eid t2).status.toExecStatus).isTerminal = false)
    (hp : 0 < p) :
    (execute_flow_core conn st f i tmo p true).result.status = ExecStatus.timed_out ∧
    ∃ e2, (execute_flow_core conn st f i tmo p true).result.completed_at =
        some (st.clock + e2) ∧
      tmo ≤ e2 ∧ e2 < tmo + p ∧
      ∃ p2, poll_loop conn st.next_id p tmo 0 0 (exec_fuel tmo p) =
        timeout_outcome conn st.next_id e2 p2 := by
  obtain ⟨e2, p2, heq, hb1, hb2, _⟩ := poll_loop_no_terminal conn st.next_id p tmo hp
    (hnt st.next_id) (exec_fuel tmo p) 0 0 (exec_fuel_enough tmo p hp) (by omega)
  have hoc : poll_loop conn st.next_id p tmo 0 0 (exec_fuel tmo p) =
      { status := ExecStatus.timed_out, output_data := [],
        error := some "Execution timed out", elapsed := e2, polls := p2 + 1 } := by
    rw [heq, timeout_outcome_no_terminal conn st.next_id (hnt st.next_id) e2 p2]
  have hcond : (true && !s0.toExecStatus.isTerminal) = true := by
    rw [hs0]
    rfl
  unfold execute_flow_core
  rw [hinv]
  dsimp only
  rw [if_pos hcond]
  dsimp only
  rw [hoc]
  exact ⟨rfl, e2, rfl, hb1, hb2, p2, hoc.symm.trans heq⟩

/-- Witness for C8 against the never-terminal connector stub. -/
theorem C8_timeout_result_witness :
    0 < 2 ∧
    (execute_flow_core stubNever initState "flow_x" [] 3 2 true).result.status =
      ExecStatus.timed_out :=
  ⟨by decide,
   (C8_timeout_result stubNever initState "flow_x" [] 3 2 WorkflowStatus.running
     rfl rfl (fun _ _ => rfl) (by decide)).1⟩

/-- C5.  Parallel execute_multiple_flows of N requests returns a list of
exactly N results, equal to the dispatch-ordered result list whatever the
completion order (any permutation of the request indices), and the entry at
index i is the execution result of request i. -/
theorem C5_parallel_aligned (conn : Connector) (st : ExecState)
    (reqs : List FlowRequest) (t p : Nat) (order : List Nat)
    (hperm : order.Perm (List.range reqs.length)) :
    (execute_multiple_flows conn st reqs t p true order).1 =
      (run_requests conn t p reqs st).1 ∧
    (execute_multiple_flows conn st reqs t p true order).1.length = reqs.length ∧
    ∀ i, i < reqs.length →
      ∃ sti, (execute_multiple_flows conn st reqs t p true order).1.getD i default =
        (execute_flow_core conn sti (reqs.getD i default).flow_id
          (reqs.getD i default).input_data t p true).result := by
  have hjoin : (execute_multiple_flows conn st reqs t p true order).1 =
      (run_requests conn t p reqs st).1 := by
    unfold execute_multiple_flows
    simp only [if_true]
    exact join_by_index_perm reqs.length _ order (run_requests_length conn t p reqs st) hperm
  refine ⟨hjoin, ?_, ?_⟩
  · rw [hjoin, run_requests_length]
  · intro i hi
    rw [hjoin]
    exact run_requests_index conn t p reqs st i hi

/-- Witness for C5 with three requests and completion order 2, 0, 1. -/
theorem C5_parallel_aligned_witness :
    (execute_multiple_flows mockConn initState
      [{ flow_id := "flow_a", input_data := [] },
       { flow_id := "flow_b", input_data := [] },
       { flow_id := "flow_c", input_data := [] }] 5 2 true [2, 0, 1]).1.length = 3 :=
  (C5_parallel_aligned mockConn initState
    [{ flow_id := "flow_a", input_data := [] },
     { flow_id := "flow_b", input_data := [] },
     { flow_id := "flow_c", input_data := [] }] 5 2 [2, 0, 1] (by decide)).2.1

/-- C1.  In every reachable executor state, a stored ExecutionResult has
completed_at set exactly when its status is terminal, and an entry whose
status is terminal survives every later orchestration step unchanged — no
later update moves it to any other status.  The result of an execute call
likewise satisfies the completed-iff-terminal invariant and is stored. -/
theorem C1_terminal_invariants (st : ExecState) (hr : Reached st) :
    (∀ r ∈ st.history, r.completed_at.isSome = r.status.isTerminal) ∧
    (∀ st2, Steps st st2 → ∀ r ∈ st.history, r.status.isTerminal = true → r ∈ st2.history) ∧
    (∀ (conn : Connector) (f : String) (i : List (String × String)) (t p : Nat) (w : Bool),
      (execute_flow_core conn st f i t p w).result.completed_at.isSome =
        (execute_flow_core conn st f i t p w).result.status.isTerminal ∧
      (execute_flow_core conn st f i t p w).result ∈
        (execute_flow_core conn st f i t p w).state.history) := by
  have hwf := reached_wf st hr
  refine ⟨hwf.1, fun st2 hsteps => (steps_preserve st st2 hsteps hwf).2, ?_⟩
  intro conn f i t p w
  refine ⟨execute_flow_core_result_wf conn st f i t p w, ?_⟩
  rw [execute_flow_core_history conn st f i t p w hwf.2.1]
  exact List.mem_append_right _ (List.mem_singleton.mpr rfl)

/-- Witness for C1 at the state reached by one execute step from the
initial state. -/
theorem C1_terminal_invariants_witness :
    (execute_flow_core mockConn initState "flow_new_hire_onboarding" [] 5 2 true).result.completed_at.isSome =
      (execute_flow_core mockConn initState "flow_new_hire_onboarding" [] 5 2 true).result.status.isTerminal :=
  ((C1_terminal_invariants initState Reached.init).2.2 mockConn
    "flow_new_hire_onboarding" [] 5 2 true).1

/-- C4.  process_event returns exactly one ExecutionResult per enabled rule
whose event-type set contains the event type and whose condition holds on
the event (an absent condition counting as true): the result list has one
entry per matching rule, the entry of a rule whose transformer throws is
Failed-shaped with a transform-failure error, the entry of a rule whose
transformer succeeds is the dispatch result carrying that rule's flow id,
and when no rule matches the result is the empty list, not an error. -/
theorem C4_process_event (conn : Connector) (ts : TriggerState) (e : SSOEvent)
    (t p : Nat) (w : Bool) :
    (process_event conn ts e t p w).1.length = (matching_rules ts.rules e).length ∧
    (matching_rules ts.rules e = [] → (process_event conn ts e t p w).1 = []) ∧
    ∀ i, i < (matching_rules ts.rules e).length →
      (∀ msg, ((matching_rules ts.rules e).getD i default).input_transformer e =
          Except.error msg →
        ((process_event conn ts e t p w).1.getD i default).status = ExecStatus.failed ∧
        ((process_event conn ts e t p w).1.getD i default).error =
          some ("Input transformation failed: " ++ msg)) ∧
      (∀ input, ((matching_rules ts.rules e).getD i default).input_transformer e =
          Except.ok input →
        ((process_event conn ts e t p w).1.getD i default).flow_id =
          ((matching_rules ts.rules e).getD i default).flow_id) := by
  have hfst : (process_event conn ts e t p w).1 =
      (process_rules conn e t p w (matching_rules ts.rules e) ts.exec).1 := rfl
  have hlen : (process_event conn ts e t p w).1.length =
      (matching_rules ts.rules e).length := by
    rw [hfst, process_rules_length]
  refine ⟨hlen, ?_, ?_⟩
  · intro hempty
    rw [← List.length_eq_zero, hlen, hempty]
    rfl
  · intro i hi
    obtain ⟨sti, _, hres⟩ := process_rules_index conn e t p w (matching_rules ts.rules e)
      ts.exec i hi
    rw [hfst, hres]
    constructor
    · intro msg hmsg
      have hd := dispatch_rule_error conn sti e ((matching_rules ts.rules e).getD i default)
        t p w msg hmsg
      rw [hd.1]
      exact ⟨rfl, rfl⟩
    · intro input hinput
      have hd := dispatch_rule_ok conn sti e ((matching_rules ts.rules e).getD i default)
        t p w input hinput
      rw [hd.1]
      exact execute_flow_core_flow_id conn sti _ input t p w

/-- Witness for C4: with an empty rule registry no rule matches and the
result list is empty. -/
theorem C4_process_event_witness :
    matching_rules (trigger0 []).rules evt_created = [] ∧
    (process_event mockConn (trigger0 []) evt_created 5 2 false).1 = [] :=
  ⟨rfl, (C4_process_event mockConn (trigger0 []) evt_created 5 2 false).2.1 rfl⟩

/-- C6.  When exactly one matching rule's input transformer throws on the
event, the returned list still has one entry per matching rule; the failing
rule's entry is Failed-shaped with an error reflecting the transform
failure, and every other matching rule's entry is exactly the executor
dispatch result of its own rule with its own transformed input — sibling
dispatches proceed unaffected. -/
theorem C6_transform_isolation (conn : Connector) (ts : TriggerState) (e : SSOEvent)
    (t p : Nat) (w : Bool) (k : Nat) (msg : String)
    (hk : k < (matching_rules ts.rules e).length)
    (herr : ((matching_rules ts.rules e).getD k default).input_transformer e =
      Except.error msg)
    (hok : ∀ j, j < (matching_rules ts.rules e).length → j ≠ k →
      ∃ input, ((matching_rules ts.rules e).getD j default).input_transformer e =
        Except.ok input) :
    (process_event conn ts e t p w).1.length = (matching_rules ts.rules e).length ∧
    ((process_event conn ts e t p w).1.getD k default).status = ExecStatus.failed ∧
    ((process_event conn ts e t p w).1.getD k default).error =
      some ("Input transformation failed: " ++ msg) ∧
    ∀ j, j < (matching_rules ts.rules e).length → j ≠ k →
      ∃ input sti,
        ((matching_rules ts.rules e).getD j default).input_transformer e = Except.ok input ∧
        (process_event conn ts e t p w).1.getD j default =
          (execute_flow_core conn sti ((matching_rules ts.rules e).getD j default).flow_id
            input t p w).result := by
  have hfst : (process_event conn ts e t p w).1 =
      (process_rules conn e t p w (matching_rules ts.rules e) ts.exec).1 := rfl
  have hlen : (process_event conn ts e t p w).1.length =
      (matching_rules ts.rules e).length := by
    rw [hfst, process_rules_length]
  obtain ⟨stk, _, hresk⟩ := process_rules_index conn e t p w (matching_rules ts.rules e)
    ts.exec k hk
  have hd := dispatch_rule_error conn stk e ((matching_rules ts.rules e).getD k default)
    t p w msg herr
  refine ⟨hlen, ?_, ?_, ?_⟩
  · rw [hfst, hresk, hd.1]
  · rw [hfst, hresk, hd.1]
  · intro j hj hne
    obtain ⟨input, hinput⟩ := hok j hj hne
    obtain ⟨stj, _, hresj⟩ := process_rules_index conn e t p w (matching_rules ts.rules e)
      ts.exec j hj
    have hdj := dispatch_rule_ok conn stj e ((matching_rules ts.rules e).getD j default)
      t p w input hinput
    exact ⟨input, stj, hinput, by rw [hfst, hresj, hdj.1]⟩

/-- Witness for C6: the broken rule's entry is Failed while the sibling
audit rule still dispatches. -/
theorem C6_transform_isolation_witness :
    ((process_event mockConn (trigger0 [rule_broken, rule_audit]) evt_created 5 2 false).1.getD
      0 default).status = ExecStatus.failed :=
  (C6_transform_isolation mockConn (trigger0 [rule_broken, rule_audit]) evt_created 5 2 false
    0 "missing field department" (by decide) rfl
    (fun j hj hne => by
      have hlen2 : (matching_rules (trigger0 [rule_broken, rule_audit]).rules
        evt_created).length = 2 := rfl
      rw [hlen2] at hj
      have hj1 : j = 1 := by omega
      rw [hj1]
      exact ⟨[("user_id", "00u123456")], rfl⟩)).2.1

/-- C9.  Processing an event appends exactly the execution ids issued for
its matching rules, in dispatch order, to the correlation record of that
event id, and leaves the record of every other event id untouched; in
particular when two enabled rules both match the event and both transformers
succeed, the result list has length two, the two execution ids are distinct,
and get_workflows_for_event-style lookup of the event id contains both. -/
theorem C9_correlation (conn : Connector) (ts : TriggerState) (e : SSOEvent)
    (t p : Nat) (w : Bool) :
    corr_get (process_event conn ts e t p w).2.correlations e.event_id =
      corr_get ts.correlations e.event_id ++
        (process_rules conn e t p w (matching_rules ts.rules e) ts.exec).2.1 ∧
    (∀ k2, k2 ≠ e.event_id →
      corr_get (process_event conn ts e t p w).2.correlations k2 =
        corr_get ts.correlations k2) ∧
    (∀ r1 r2, matching_rules ts.rules e = [r1, r2] →
      ∀ i1, r1.input_transformer e = Except.ok i1 →
      ∀ i2, r2.input_transformer e = Except.ok i2 →
        (process_event conn ts e t p w).1.length = 2 ∧
        ((process_event conn ts e t p w).1.getD 0 default).execution_id ≠
          ((process_event conn ts e t p w).1.getD 1 default).execution_id ∧
        ((process_event conn ts e t p w).1.getD 0 default).execution_id ∈
          corr_get (process_event conn ts e t p w).2.correlations e.event_id ∧
        ((process_event conn ts e t p w).1.getD 1 default).execution_id ∈
          corr_get (process_event conn ts e t p w).2.correlations e.event_id) := by
  have hcorr : (process_event conn ts e t p w).2.correlations =
      corr_add ts.correlations e.event_id
        (process_rules conn e t p w (matching_rules ts.rules e) ts.exec).2.1 := rfl
  have hfst : (process_event conn ts e t p w).1 =
      (process_rules conn e t p w (matching_rules ts.rules e) ts.exec).1 := rfl
  have hself : corr_get (process_event conn ts e t p w).2.correlations e.event_id =
      corr_get ts.correlations e.event_id ++
        (process_rules conn e t p w (matching_rules ts.rules e) ts.exec).2.1 := by
    rw [hcorr, corr_get_corr_add_self]
  refine ⟨hself, ?_, ?_⟩
  · intro k2 hne
    rw [hcorr, corr_get_corr_add_other _ _ _ _ hne]
  · intro r1 r2 hms i1 h1 i2 h2
    have h0lt : 0 < (matching_rules ts.rules e).length := by rw [hms]; simp
    have h1lt : 1 < (matching_rules ts.rules e).length := by rw [hms]; simp
    obtain ⟨st0, hn0, hres0⟩ := process_rules_index conn e t p w
      (matching_rules ts.rules e) ts.exec 0 h0lt
    obtain ⟨st1, hn1, hres1⟩ := process_rules_index conn e t p w
      (matching_rules ts.rules e) ts.exec 1 h1lt
    have hg0 : (matching_rules ts.rules e).getD 0 default = r1 := by rw [hms]; rfl
    have hg1 : (matching_rules ts.rules e).getD 1 default = r2 := by rw [hms]; rfl
    refine ⟨?_, ?_, ?_, ?_⟩
    · rw [hfst, process_rules_length, hms]
      rfl
    · rw [hfst, hres0, hres1, dispatch_rule_result_id, dispatch_rule_result_id, hn0, hn1]
      omega
    · rw [hself]
      apply List.mem_append_right
      rw [hfst]
      exact process_rules_ids_mem conn e t p w (matching_rules ts.rules e) ts.exec 0 h0lt
        i1 (by rw [hg0]; exact h1)
    · rw [hself]
      apply List.mem_append_right
      rw [hfst]
      exact process_rules_ids_mem conn e t p w (matching_rules ts.rules e) ts.exec 1 h1lt
        i2 (by rw [hg1]; exact h2)

/-- Witness for C9: two rules sharing the user-created event type yield two
results and the first execution id is recorded in the correlation of the
event. -/
theorem C9_correlation_witness :
    (process_event mockConn (trigger0 [rule_onboarding, rule_audit]) evt_created
      5 2 false).1.length = 2 ∧
    ((process_event mockConn (trigger0 [rule_onboarding, rule_audit]) evt_created
      5 2 false).1.getD 0 default).execution_id ∈
      corr_get (process_event mockConn (trigger0 [rule_onboarding, rule_audit]) evt_created
        5 2 false).2.correlations evt_created.event_id :=
  have h := (C9_correlation mockConn (trigger0 [rule_onboarding, rule_audit]) evt_created
      5 2 false).2.2 rule_onboarding rule_audit rfl
    [("user_id", "00u123456"), ("email", "newuser@company.com")] rfl
    [("user_id", "00u123456")] rfl
  ⟨h.1, h.2.2.1⟩

end OktaWorkflows
